import Mathlib

/-!
Shallow embedding of the FastEye / LogWise log time-filtering core
(`fasteye.py`, `logwise-time.py`, `logwise_v3.py`).

Python strings are modelled as `List Char`, `datetime.datetime` values as the
six-field `Timestamp` record with the lexicographic field comparison that
CPython's `datetime` implements, and `timedelta` arithmetic through a
days-from-civil / civil-from-days round trip (the proleptic Gregorian
calendar, as Python uses).  `datetime.now().year` is passed in as an explicit
`now_year` parameter.  Functions that swallow exceptions and return `None`
become `Option`-valued; the uncaught `ValueError` of `int()` inside
`parse_offset` becomes an `Except` error value.
-/

/-- A naive `datetime.datetime` value (no timezone, microseconds always 0). -/
structure Timestamp where
  year : Int
  month : Int
  day : Int
  hour : Int
  minute : Int
  second : Int
deriving DecidableEq, Repr

/-- CPython compares `datetime` objects by lexicographic comparison of their
fields; this is the strict version of that order. -/
def Timestamp.ltb (a b : Timestamp) : Bool :=
  if a.year = b.year then
    if a.month = b.month then
      if a.day = b.day then
        if a.hour = b.hour then
          if a.minute = b.minute then decide (a.second < b.second)
          else decide (a.minute < b.minute)
        else decide (a.hour < b.hour)
      else decide (a.day < b.day)
    else decide (a.month < b.month)
  else decide (a.year < b.year)

/-- The non-strict comparison `<=` on `datetime` objects. -/
def Timestamp.leb (a b : Timestamp) : Bool :=
  decide (a = b) || Timestamp.ltb a b

theorem Timestamp.ltb_iff (a b : Timestamp) : Timestamp.ltb a b = true ↔
    (a.year < b.year ∨ (a.year = b.year ∧
      (a.month < b.month ∨ (a.month = b.month ∧
        (a.day < b.day ∨ (a.day = b.day ∧
          (a.hour < b.hour ∨ (a.hour = b.hour ∧
            (a.minute < b.minute ∨ (a.minute = b.minute ∧
              a.second < b.second)))))))))) := by
  unfold Timestamp.ltb
  split_ifs <;> simp [decide_eq_true_eq] <;> omega

theorem Timestamp.ltb_irrefl (a : Timestamp) : Timestamp.ltb a a = false := by
  rw [Bool.eq_false_iff]
  intro h
  rw [Timestamp.ltb_iff] at h
  omega

theorem Timestamp.ltb_trans {a b c : Timestamp}
    (hab : Timestamp.ltb a b = true) (hbc : Timestamp.ltb b c = true) :
    Timestamp.ltb a c = true := by
  rw [Timestamp.ltb_iff] at hab hbc ⊢
  omega

theorem Timestamp.ltb_total {a b : Timestamp} (h : a ≠ b) :
    Timestamp.ltb a b = true ∨ Timestamp.ltb b a = true := by
  obtain ⟨ay, amo, ad, ah, ami, as2⟩ := a
  obtain ⟨by2, bmo, bd, bh, bmi, bs⟩ := b
  rw [Timestamp.ltb_iff, Timestamp.ltb_iff]
  simp only [ne_eq, Timestamp.mk.injEq, not_and] at h
  dsimp only
  omega

theorem Timestamp.ltb_ne {a b : Timestamp} (h : Timestamp.ltb a b = true) :
    a ≠ b := by
  intro he
  subst he
  rw [Timestamp.ltb_irrefl] at h
  exact Bool.false_ne_true h

theorem Timestamp.ltb_year_le {a b : Timestamp} (h : Timestamp.ltb a b = true) :
    a.year ≤ b.year := by
  rw [Timestamp.ltb_iff] at h
  omega

/-- Gregorian leap-year test, as Python `calendar`/`datetime` use. -/
def isLeap (y : Int) : Bool :=
  y % 4 = 0 && (y % 100 ≠ 0 || y % 400 = 0)

/-- Number of days in a month of a given year. -/
def daysInMonth (y m : Int) : Int :=
  if m = 2 then (if isLeap y then 29 else 28)
  else if m = 4 ∨ m = 6 ∨ m = 9 ∨ m = 11 then 30
  else 31

/-- The argument checks done by the `datetime.datetime` constructor
(`MINYEAR = 1`, `MAXYEAR = 9999`, month 1..12, day 1..days-in-month,
hour 0..23, minute 0..59, second 0..59). -/
def validDatetime (y mo d h mi s : Int) : Bool :=
  decide (1 ≤ y) && decide (y ≤ 9999) &&
  decide (1 ≤ mo) && decide (mo ≤ 12) &&
  decide (1 ≤ d) && decide (d ≤ daysInMonth y mo) &&
  decide (0 ≤ h) && decide (h ≤ 23) &&
  decide (0 ≤ mi) && decide (mi ≤ 59) &&
  decide (0 ≤ s) && decide (s ≤ 59)

/-- `datetime.datetime(y, mo, d, h, mi, s)` under a surrounding
`try/except`: an out-of-range component yields `none` instead of raising. -/
def mkDatetime (y mo d h mi s : Int) : Option Timestamp :=
  if validDatetime y mo d h mi s then some ⟨y, mo, d, h, mi, s⟩ else none

theorem mkDatetime_valid {y mo d h mi s : Int} {t : Timestamp}
    (h : mkDatetime y mo d h mi s = some t) :
    validDatetime t.year t.month t.day t.hour t.minute t.second = true := by
  unfold mkDatetime at h
  split at h
  · cases h
    assumption
  · cases h

/-- Days since 1970-01-01 of a civil date (proleptic Gregorian). -/
def daysFromCivil (y m d : Int) : Int :=
  let y2 := if m ≤ 2 then y - 1 else y
  let era := y2.ediv 400
  let yoe := y2 - era * 400
  let mp := if m > 2 then m - 3 else m + 9
  let doy := (153 * mp + 2).ediv 5 + d - 1
  let doe := yoe * 365 + yoe.ediv 4 - yoe.ediv 100 + doy
  era * 146097 + doe - 719468

/-- Civil date (year, month, day) of a day count since 1970-01-01. -/
def civilFromDays (z0 : Int) : Int × Int × Int :=
  let z := z0 + 719468
  let era := z.ediv 146097
  let doe := z - era * 146097
  let yoe := (doe - doe.ediv 1460 + doe.ediv 36524 - doe.ediv 146096).ediv 365
  let y := yoe + era * 400
  let doy := doe - (365 * yoe + yoe.ediv 4 - yoe.ediv 100)
  let mp := (5 * doy + 2).ediv 153
  let d := doy - (153 * mp + 2).ediv 5 + 1
  let m := if mp < 10 then mp + 3 else mp - 9
  (if m ≤ 2 then y + 1 else y, m, d)

/-- Seconds since the epoch of a timestamp. -/
def toSecs (t : Timestamp) : Int :=
  daysFromCivil t.year t.month t.day * 86400 +
    t.hour * 3600 + t.minute * 60 + t.second

/-- Timestamp of a second count since the epoch. -/
def ofSecs (n : Int) : Timestamp :=
  let days := n.ediv 86400
  let rem := n.emod 86400
  let ymd := civilFromDays days
  { year := ymd.1, month := ymd.2.1, day := ymd.2.2,
    hour := rem.ediv 3600, minute := (rem.emod 3600).ediv 60,
    second := rem.emod 60 }

/-- `datetime + timedelta(seconds = secs)`. -/
def tadd (t : Timestamp) (secs : Int) : Timestamp :=
  ofSecs (toSecs t + secs)

/-- `datetime - timedelta(seconds = secs)`. -/
def tsub (t : Timestamp) (secs : Int) : Timestamp :=
  ofSecs (toSecs t - secs)

example : tadd ⟨2025, 9, 9, 13, 12, 42⟩ 60 = ⟨2025, 9, 9, 13, 13, 42⟩ := by decide
example : tsub ⟨2025, 9, 9, 13, 12, 42⟩ 600 = ⟨2025, 9, 9, 13, 2, 42⟩ := by decide
example : tadd ⟨2024, 2, 28, 23, 59, 59⟩ 1 = ⟨2024, 2, 29, 0, 0, 0⟩ := by decide
example : tadd ⟨2023, 2, 28, 23, 59, 59⟩ 1 = ⟨2023, 3, 1, 0, 0, 0⟩ := by decide

/-- ASCII whitespace recognized by the regex class `\s` (and stripped by
`int()`): space, tab, newline, carriage return, vertical tab, form feed. -/
def pyIsSpace (c : Char) : Bool :=
  c == ' ' || c == '\t' || c == '\n' || c == '\r' || c == '\x0b' || c == '\x0c'

/-- The regex word class `\w`: letters, digits and underscore. -/
def isWordChar (c : Char) : Bool :=
  c.isAlphanum || c == '_'

/-- Exactly `n` consecutive characters satisfying `p` (a `p{n}` regex item);
returns the matched characters and the rest of the input. -/
def takeExact (p : Char → Bool) : Nat → List Char → Option (List Char × List Char)
  | 0, cs => some ([], cs)
  | _ + 1, [] => none
  | n + 1, c :: cs =>
    if p c then (takeExact p n cs).map (fun tr => (c :: tr.1, tr.2)) else none

/-- The regex item `\s+`: at least one whitespace character, matched greedily. -/
def skipSpaces1 : List Char → Option (List Char)
  | [] => none
  | c :: cs => if pyIsSpace c then some (cs.dropWhile pyIsSpace) else none

/-- One expected literal character. -/
def expectChar (e : Char) : List Char → Option (List Char)
  | [] => none
  | c :: cs => if c = e then some cs else none

/-- Numeric value of a digit string (all characters assumed digits). -/
def digitsToNat (ds : List Char) : Nat :=
  ds.foldl (fun a c => a * 10 + (c.toNat - 48)) 0

/-- The regex item `(\d{1,2})`, matched greedily.  Backtracking cannot change
the outcome in the patterns below because the token following the group never
matches a digit. -/
def takeDigits12 : List Char → Option (Nat × List Char)
  | [] => none
  | [c] => if c.isDigit then some (digitsToNat [c], []) else none
  | c :: d :: cs =>
    if c.isDigit then
      if d.isDigit then some (digitsToNat [c, d], cs)
      else some (digitsToNat [c], d :: cs)
    else none

/-- ASCII lowercasing, modelling the effect of the `re.IGNORECASE` flag that
`datetime.strptime` compiles its format patterns with. -/
def lowerAscii (c : Char) : Char :=
  if 'A' ≤ c ∧ c ≤ 'Z' then Char.ofNat (c.toNat + 32) else c

/-- The `%b` directive of `strptime`: the three-letter English month
abbreviations, matched case-insensitively. -/
def strptimeMonth (s : List Char) : Option Int :=
  let t := s.map lowerAscii
  if t = "jan".toList then some 1
  else if t = "feb".toList then some 2
  else if t = "mar".toList then some 3
  else if t = "apr".toList then some 4
  else if t = "may".toList then some 5
  else if t = "jun".toList then some 6
  else if t = "jul".toList then some 7
  else if t = "aug".toList then some 8
  else if t = "sep".toList then some 9
  else if t = "oct".toList then some 10
  else if t = "nov".toList then some 11
  else if t = "dec".toList then some 12
  else none

/-- Line-break characters of Python `str.splitlines`. -/
def isLineBreak (c : Char) : Bool :=
  c == '\n' || c == '\r' || c == '\x0b' || c == '\x0c' ||
  c == '\x1c' || c == '\x1d' || c == '\x1e' || c == '\x85' ||
  c == ' ' || c == ' '

/-- Worker for `splitlines`; `acc` holds the current line reversed, and
`afterCR` records that the previous character was a carriage return whose
immediately following newline must be swallowed (the `\r\n` pair counts as
one break). -/
def splitlinesGo : List Char → List Char → Bool → List (List Char)
  | [], acc, _ => if acc.isEmpty then [] else [acc.reverse]
  | c :: rest, acc, afterCR =>
    if afterCR && c = '\n' then splitlinesGo rest acc false
    else if c = '\r' then acc.reverse :: splitlinesGo rest [] true
    else if isLineBreak c then acc.reverse :: splitlinesGo rest [] false
    else splitlinesGo rest (c :: acc) false

/-- Python `str.splitlines()`. -/
def splitlines (cs : List Char) : List (List Char) :=
  splitlinesGo cs [] false

example : splitlines "a\nb".toList = ["a".toList, "b".toList] := by decide
example : splitlines "a\n".toList = ["a".toList] := by decide
example : splitlines "\n".toList = ["".toList] := by decide
example : splitlines "".toList = [] := by decide
example : splitlines "a\r\nb".toList = ["a".toList, "b".toList] := by decide

/-- `parse_bracketed_syslog_datetime` of `fasteye.py`: `re.match` of
`\[(\w{3})\s+(\w{3})\s+(\d{1,2})\s+(\d{2}):(\d{2}):(\d{2})\s+(\d{4})\]`
followed by `strptime(month_str, "%b")` and the `datetime` constructor,
with every failure collapsed to `None`. -/
def parse_bracketed_syslog_datetime (line : List Char) : Option Timestamp :=
  match expectChar '[' line with
  | none => none
  | some r =>
  match takeExact isWordChar 3 r with
  | none => none
  | some (_dow, r) =>
  match skipSpaces1 r with
  | none => none
  | some r =>
  match takeExact isWordChar 3 r with
  | none => none
  | some (monthStr, r) =>
  match skipSpaces1 r with
  | none => none
  | some r =>
  match takeDigits12 r with
  | none => none
  | some (day, r) =>
  match skipSpaces1 r with
  | none => none
  | some r =>
  match takeExact Char.isDigit 2 r with
  | none => none
  | some (hh, r) =>
  match expectChar ':' r with
  | none => none
  | some r =>
  match takeExact Char.isDigit 2 r with
  | none => none
  | some (mm, r) =>
  match expectChar ':' r with
  | none => none
  | some r =>
  match takeExact Char.isDigit 2 r with
  | none => none
  | some (ss, r) =>
  match skipSpaces1 r with
  | none => none
  | some r =>
  match takeExact Char.isDigit 4 r with
  | none => none
  | some (yy, r) =>
  match expectChar ']' r with
  | none => none
  | some _ =>
  match strptimeMonth monthStr with
  | none => none
  | some month =>
  mkDatetime (digitsToNat yy) month day (digitsToNat hh) (digitsToNat mm) (digitsToNat ss)

/-- `parse_traditional_syslog_datetime` of `fasteye.py` (identical to
`parse_syslog_datetime` of `logwise_v3.py`): `re.match` of
`([A-Za-z]{3})\s+(\d{1,2})\s+(\d{2}):(\d{2}):(\d{2})` with an externally
supplied year, every failure collapsed to `None`. -/
def parse_traditional_syslog_datetime (line : List Char) (year : Int) : Option Timestamp :=
  match takeExact Char.isAlpha 3 line with
  | none => none
  | some (monthStr, r) =>
  match skipSpaces1 r with
  | none => none
  | some r =>
  match takeDigits12 r with
  | none => none
  | some (day, r) =>
  match skipSpaces1 r with
  | none => none
  | some r =>
  match takeExact Char.isDigit 2 r with
  | none => none
  | some (hh, r) =>
  match expectChar ':' r with
  | none => none
  | some r =>
  match takeExact Char.isDigit 2 r with
  | none => none
  | some (mm, r) =>
  match expectChar ':' r with
  | none => none
  | some r =>
  match takeExact Char.isDigit 2 r with
  | none => none
  | some (ss, _r) =>
  match strptimeMonth monthStr with
  | none => none
  | some month =>
  mkDatetime year month day (digitsToNat hh) (digitsToNat mm) (digitsToNat ss)

example : parse_bracketed_syslog_datetime "[Tue Sep 9 13:12:42 2025] b".toList =
    some ⟨2025, 9, 9, 13, 12, 42⟩ := by decide
example : parse_bracketed_syslog_datetime "[Tue Sep  9 13:12:42 2025] b".toList =
    some ⟨2025, 9, 9, 13, 12, 42⟩ := by decide
example : parse_bracketed_syslog_datetime "not a log line".toList = none := by decide
example : parse_bracketed_syslog_datetime "[Tue Feb 31 10:00:00 2025] x".toList = none := by decide
example : parse_bracketed_syslog_datetime "[Tue SEP 9 13:12:42 2025] b".toList =
    some ⟨2025, 9, 9, 13, 12, 42⟩ := by decide
example : parse_traditional_syslog_datetime "Sep  9 13:12:42 host prog: msg".toList 2025 =
    some ⟨2025, 9, 9, 13, 12, 42⟩ := by decide
example : parse_traditional_syslog_datetime "".toList 2025 = none := by decide

/-- `detect_timestamp_format` of `fasteye.py`: the first line matching the
bracketed grammar classifies the file as `"bracketed"`, otherwise it is
`"traditional"`. -/
def detect_timestamp_format (log_content : List Char) : String :=
  if (splitlines log_content).any (fun l => (parse_bracketed_syslog_datetime l).isSome)
  then "bracketed" else "traditional"

/-- Ordered duplicate-skipping insertion; folding it over a list yields
exactly Python `sorted(set(l))`: the distinct elements in ascending order. -/
def insertTS (t : Timestamp) : List Timestamp → List Timestamp
  | [] => [t]
  | u :: us =>
    if t = u then u :: us
    else if Timestamp.ltb t u then t :: u :: us
    else u :: insertTS t us

/-- Python `sorted(set(l))` for timestamps. -/
def sortedDedup (l : List Timestamp) : List Timestamp :=
  l.foldr insertTS []

/-- `re.search` of four digits captured before a dash or slash: the leftmost
such occurrence in the content, as a number. -/
def searchYearToken : List Char → Option Nat
  | a :: b :: c :: d :: e :: rest =>
    if a.isDigit && b.isDigit && c.isDigit && d.isDigit && (e == '-' || e == '/')
    then some (digitsToNat [a, b, c, d])
    else searchYearToken (b :: c :: d :: e :: rest)
  | _ => none

/-- `detect_year_and_times` of `fasteye.py`.  `now_year` stands for
`datetime.now().year`, injected as a parameter. -/
def detect_year_and_times (now_year : Int) (log_content : List Char)
    (timestamp_format : String) : Int × List Timestamp :=
  if timestamp_format = "bracketed" then
    let times := (splitlines log_content).filterMap parse_bracketed_syslog_datetime
    let unique_times := sortedDedup times
    let year := match unique_times.head? with
      | some t => t.year
      | none => now_year
    (year, unique_times)
  else
    let year : Int := match searchYearToken log_content with
      | some y => (y : Int)
      | none => now_year
    let times := (splitlines log_content).filterMap
      (fun l => parse_traditional_syslog_datetime l year)
    (year, sortedDedup times)

/-- `detect_year_and_times` of `logwise_v3.py`: the traditional-only variant
(year from the four-digits-before-dash-or-slash search, else the injected
current year). -/
def detect_year_and_times_v3 (now_year : Int) (log_content : List Char) :
    Int × List Timestamp :=
  let year : Int := match searchYearToken log_content with
    | some y => (y : Int)
    | none => now_year
  let times := (splitlines log_content).filterMap
    (fun l => parse_traditional_syslog_datetime l year)
  (year, sortedDedup times)

/-- The per-line keep test of `filter_syslog_by_time`: the line parses under
the active format and its timestamp satisfies `start <= dt < end`. -/
def keepLine (startT endT : Timestamp) (year : Int) (timestamp_format : String)
    (line : List Char) : Bool :=
  match (if timestamp_format = "bracketed"
         then parse_bracketed_syslog_datetime line
         else parse_traditional_syslog_datetime line year) with
  | some dt => Timestamp.leb startT dt && Timestamp.ltb dt endT
  | none => false

/-- The loop body of `filter_syslog_by_time`: the kept lines, in original
order. -/
def keptLines (startT endT : Timestamp) (year : Int) (timestamp_format : String)
    (lines : List (List Char)) : List (List Char) :=
  lines.filter (keepLine startT endT year timestamp_format)

/-- `filter_syslog_by_time` of `fasteye.py`: `end = start +
timedelta(minutes=duration_minutes)`, keep the lines whose parsed timestamp
`dt` satisfies `start <= dt < end`, and join them with newlines. -/
def filter_syslog_by_time (log_content : List Char) (start : Timestamp)
    (duration_minutes : Int) (year : Int) (timestamp_format : String) : List Char :=
  let endT := tadd start (duration_minutes * 60)
  List.intercalate ['\n'] (keptLines start endT year timestamp_format (splitlines log_content))

example : detect_timestamp_format "[Tue Sep 9 13:12:42 2025] b".toList = "bracketed" := by decide
example : detect_timestamp_format "Sep  9 13:12:42 host x".toList = "traditional" := by decide
example : searchYearToken "ts 2025-09-09".toList = some 2025 := by decide
example : searchYearToken "12345/".toList = some 2345 := by decide
example : searchYearToken "no year here".toList = none := by decide
example : sortedDedup [⟨2025, 9, 9, 13, 12, 42⟩, ⟨2025, 9, 9, 13, 12, 40⟩, ⟨2025, 9, 9, 13, 12, 42⟩] =
    [⟨2025, 9, 9, 13, 12, 40⟩, ⟨2025, 9, 9, 13, 12, 42⟩] := by decide

instance {ε α : Type} [DecidableEq ε] [DecidableEq α] : DecidableEq (Except ε α)
  | .error a, .error b => decidable_of_iff (a = b) (by rw [Except.error.injEq])
  | .error _, .ok _ => isFalse (by intro h; cases h)
  | .ok _, .error _ => isFalse (by intro h; cases h)
  | .ok a, .ok b => decidable_of_iff (a = b) (by rw [Except.ok.injEq])

/-- Digit run of a Python integer literal: digits with single underscores
allowed between digits (the grammar `int()` accepts after the sign). -/
def pyDigitsGo : List Char → Nat → Option Nat
  | [], acc => some acc
  | c :: cs, acc =>
    if c = '_' then
      match cs with
      | [] => none
      | d :: cs2 =>
        if d.isDigit then pyDigitsGo cs2 (acc * 10 + (d.toNat - 48)) else none
    else if c.isDigit then pyDigitsGo cs (acc * 10 + (c.toNat - 48))
    else none

/-- A nonempty digit run (underscore-separated) as a number. -/
def pyDigits : List Char → Option Nat
  | [] => none
  | c :: cs => if c.isDigit then pyDigitsGo cs (c.toNat - 48) else none

/-- Python `int(str)`: strip surrounding whitespace, an optional sign, then
an underscore-separated digit run; anything else raises `ValueError`,
modelled as `none`. -/
def pyInt (s : List Char) : Option Int :=
  let t := ((s.dropWhile pyIsSpace).reverse.dropWhile pyIsSpace).reverse
  match t with
  | [] => none
  | c :: rest =>
    if c = '-' then (pyDigits rest).map (fun n => -(n : Int))
    else if c = '+' then (pyDigits rest).map (fun n => (n : Int))
    else pyDigits t

/-- `parse_offset` of `logwise-time.py`, returning the `timedelta` as a
number of seconds: a trailing `m`, `h` or `s` scales the integer prefix;
with no unit the whole value is minutes; a failing `int()` raises
`ValueError`, modelled as the `Except` error value. -/
def parse_offset (s : List Char) : Except String Int :=
  if s.getLast? = some 'm' then
    match pyInt s.dropLast with
    | some n => .ok (n * 60)
    | none => .error "ValueError"
  else if s.getLast? = some 'h' then
    match pyInt s.dropLast with
    | some n => .ok (n * 3600)
    | none => .error "ValueError"
  else if s.getLast? = some 's' then
    match pyInt s.dropLast with
    | some n => .ok n
    | none => .error "ValueError"
  else
    match pyInt s with
    | some n => .ok (n * 60)
    | none => .error "ValueError"

example : parse_offset "10m".toList = .ok 600 := by decide
example : parse_offset "1h".toList = .ok 3600 := by decide
example : parse_offset "30s".toList = .ok 30 := by decide
example : parse_offset "90".toList = .ok 5400 := by decide
example : parse_offset "abc".toList = .error "ValueError" := by decide
example : parse_offset "-5".toList = .ok (-300) := by decide
example : parse_offset "-5m".toList = .ok (-300) := by decide
example : parse_offset "".toList = .error "ValueError" := by decide

/-- The dmesg-style `re.match` of `parse_log_time` in `logwise-time.py`:
a bracketed weekday, month, day, time and four-digit year, with single
literal spaces except for the `\s+` between month and day.  Returns the
captured fields. -/
def dmesgMatch (line : List Char) : Option (List Char × Nat × Nat × Nat × Nat × Nat) :=
  match expectChar '[' line with
  | none => none
  | some r =>
  match takeExact isWordChar 3 r with
  | none => none
  | some (_dow, r) =>
  match expectChar ' ' r with
  | none => none
  | some r =>
  match takeExact isWordChar 3 r with
  | none => none
  | some (monthStr, r) =>
  match skipSpaces1 r with
  | none => none
  | some r =>
  match takeDigits12 r with
  | none => none
  | some (day, r) =>
  match expectChar ' ' r with
  | none => none
  | some r =>
  match takeExact Char.isDigit 2 r with
  | none => none
  | some (hh, r) =>
  match expectChar ':' r with
  | none => none
  | some r =>
  match takeExact Char.isDigit 2 r with
  | none => none
  | some (mm, r) =>
  match expectChar ':' r with
  | none => none
  | some r =>
  match takeExact Char.isDigit 2 r with
  | none => none
  | some (ss, r) =>
  match expectChar ' ' r with
  | none => none
  | some r =>
  match takeExact Char.isDigit 4 r with
  | none => none
  | some (yy, r) =>
  match expectChar ']' r with
  | none => none
  | some _ =>
    some (monthStr, day, digitsToNat hh, digitsToNat mm, digitsToNat ss, digitsToNat yy)

/-- The syslog-style `re.match` of `parse_log_time` in `logwise-time.py`:
an uppercase letter, two lowercase letters, `\s+`, a 1-2 digit day, `\s+`
and a `HH:MM:SS` group.  Returns the captured fields. -/
def syslogMatch (line : List Char) : Option (List Char × Nat × Nat × Nat × Nat) :=
  match line with
  | [] => none
  | c0 :: r =>
  if c0.isUpper then
    match takeExact Char.isLower 2 r with
    | none => none
    | some (rest2, r) =>
    match skipSpaces1 r with
    | none => none
    | some r =>
    match takeDigits12 r with
    | none => none
    | some (day, r) =>
    match skipSpaces1 r with
    | none => none
    | some r =>
    match takeExact Char.isDigit 2 r with
    | none => none
    | some (hh, r) =>
    match expectChar ':' r with
    | none => none
    | some r =>
    match takeExact Char.isDigit 2 r with
    | none => none
    | some (mm, r) =>
    match expectChar ':' r with
    | none => none
    | some r =>
    match takeExact Char.isDigit 2 r with
    | none => none
    | some (ss, _r) =>
      some (c0 :: rest2, day, digitsToNat hh, digitsToNat mm, digitsToNat ss)
  else none

/-- `parse_log_time` of `logwise-time.py`: try the dmesg grammar first (a
conversion failure returns `None` without falling through), then the syslog
grammar with `datetime.now().year`, injected as `now_year`. -/
def parse_log_time (now_year : Int) (line : List Char) : Option Timestamp :=
  match dmesgMatch line with
  | some (monthStr, day, hh, mm, ss, yy) =>
    match strptimeMonth monthStr with
    | some month => mkDatetime (yy : Int) month (day : Int) (hh : Int) (mm : Int) (ss : Int)
    | none => none
  | none =>
    match syslogMatch line with
    | some (monthStr, day, hh, mm, ss) =>
      match strptimeMonth monthStr with
      | some month => mkDatetime now_year month (day : Int) (hh : Int) (mm : Int) (ss : Int)
      | none => none
    | none => none

/-- `datetime.strptime(target_time, "%b-%dT%H:%M")` as used by
`filter_logs_by_time`: a month abbreviation, dash, 1-2 digit day, `T`,
1-2 digit hour, colon, 1-2 digit minute, consuming the whole string; the
year defaults to 1900 and the seconds to 0, validated by the `datetime`
constructor. -/
def parseTargetTime (s : List Char) : Option Timestamp :=
  match takeExact Char.isAlpha 3 s with
  | none => none
  | some (monthStr, r) =>
  match expectChar '-' r with
  | none => none
  | some r =>
  match takeDigits12 r with
  | none => none
  | some (day, r) =>
  match expectChar 'T' r with
  | none => none
  | some r =>
  match takeDigits12 r with
  | none => none
  | some (hh, r) =>
  match expectChar ':' r with
  | none => none
  | some r =>
  match takeDigits12 r with
  | none => none
  | some (mm, r) =>
  if r ≠ [] then none
  else
    match strptimeMonth monthStr with
    | none => none
    | some month => mkDatetime 1900 month (day : Int) (hh : Int) (mm : Int) 0

/-- The per-line keep test of `filter_logs_by_time`: the line parses via
`parse_log_time` and the timestamp satisfies
`start_window <= ts <= end_window`. -/
def keepLineOffset (now_year : Int) (startW endW : Timestamp) (line : List Char) : Bool :=
  match parse_log_time now_year line with
  | some ts => Timestamp.leb startW ts && Timestamp.leb ts endW
  | none => false

/-- `filter_logs_by_time` of `logwise-time.py`: parse the target (returning
`[]` on failure), replace its year by `datetime.now().year` (injected as
`now_year`), parse both offsets (an invalid offset raises `ValueError`,
modelled as the `Except` error), and keep the lines whose timestamp lies in
the closed window `[target - before, target + after]`, in original order. -/
def filter_logs_by_time (now_year : Int) (lines : List (List Char))
    (target_time before after : List Char) : Except String (List (List Char)) :=
  match parseTargetTime target_time with
  | none => .ok []
  | some base =>
    let target_dt : Timestamp := { base with year := now_year }
    match parse_offset before with
    | .error e => .error e
    | .ok before_td =>
      match parse_offset after with
      | .error e => .error e
      | .ok after_td =>
        let start_window := tsub target_dt before_td
        let end_window := tadd target_dt after_td
        .ok (lines.filter (keepLineOffset now_year start_window end_window))

example : parse_log_time 2031 "[Tue Sep  9 13:12:42 2025] dmesg line".toList =
    some ⟨2025, 9, 9, 13, 12, 42⟩ := by decide
example : parse_log_time 2031 "Sep  9 13:12:42 host prog: msg".toList =
    some ⟨2031, 9, 9, 13, 12, 42⟩ := by decide
example : parse_log_time 2031 "sep  9 13:12:42 lowercase".toList = none := by decide
example : parseTargetTime "Sep-09T13:10".toList = some ⟨1900, 9, 9, 13, 10, 0⟩ := by decide
example : parseTargetTime "Sep-09T13:10 extra".toList = none := by decide
example : parseTargetTime "Feb-29T10:00".toList = none := by decide
example : filter_logs_by_time 2025
    ["[Tue Sep  9 13:12:42 2025] x".toList, "junk".toList]
    "Sep-09T13:10".toList "5m".toList "5m".toList =
    .ok ["[Tue Sep  9 13:12:42 2025] x".toList] := by decide
example : filter_logs_by_time 2025 ["a".toList] "Sep-09T13:10".toList "zz".toList "5m".toList =
    .error "ValueError" := by decide
example : filter_logs_by_time 2025 ["a".toList] "bad target".toList "zz".toList "5m".toList =
    .ok [] := by decide

theorem mem_insertTS {x t : Timestamp} {l : List Timestamp} :
    x ∈ insertTS t l ↔ x = t ∨ x ∈ l := by
  induction l with
  | nil => simp [insertTS]
  | cons u us ih =>
    unfold insertTS
    split_ifs with h1 h2
    · subst h1
      simp [List.mem_cons]
    · simp [List.mem_cons]
    · simp only [List.mem_cons, ih]
      tauto

theorem pairwise_insertTS {t : Timestamp} {l : List Timestamp}
    (hs : l.Pairwise (fun a b => Timestamp.ltb a b = true)) :
    (insertTS t l).Pairwise (fun a b => Timestamp.ltb a b = true) := by
  induction l with
  | nil => simp [insertTS]
  | cons u us ih =>
    rw [List.pairwise_cons] at hs
    obtain ⟨hu, hus⟩ := hs
    unfold insertTS
    split_ifs with h1 h2
    · exact List.pairwise_cons.mpr ⟨hu, hus⟩
    · refine List.pairwise_cons.mpr ⟨?_, List.pairwise_cons.mpr ⟨hu, hus⟩⟩
      intro x hx
      rcases List.mem_cons.mp hx with hx | hx
      · subst hx
        exact h2
      · exact Timestamp.ltb_trans h2 (hu x hx)
    · refine List.pairwise_cons.mpr ⟨?_, ih hus⟩
      intro x hx
      rcases mem_insertTS.mp hx with hx | hx
      · subst hx
        rcases Timestamp.ltb_total h1 with h | h
        · exact absurd h h2
        · exact h
      · exact hu x hx

theorem mem_sortedDedup {x : Timestamp} {l : List Timestamp} :
    x ∈ sortedDedup l ↔ x ∈ l := by
  induction l with
  | nil => simp [sortedDedup]
  | cons u us ih =>
    show x ∈ insertTS u (sortedDedup us) ↔ _
    rw [mem_insertTS, ih, List.mem_cons]

theorem pairwise_sortedDedup (l : List Timestamp) :
    (sortedDedup l).Pairwise (fun a b => Timestamp.ltb a b = true) := by
  induction l with
  | nil => simp [sortedDedup]
  | cons u us ih => exact pairwise_insertTS ih

theorem nodup_sortedDedup (l : List Timestamp) : (sortedDedup l).Nodup :=
  (pairwise_sortedDedup l).imp (fun h => Timestamp.ltb_ne h)

theorem insertTS_ne_nil (t : Timestamp) (l : List Timestamp) : insertTS t l ≠ [] := by
  cases l with
  | nil => simp [insertTS]
  | cons u us =>
    unfold insertTS
    split_ifs <;> simp

theorem sortedDedup_ne_nil {l : List Timestamp} (h : l ≠ []) : sortedDedup l ≠ [] := by
  cases l with
  | nil => exact absurd rfl h
  | cons u us => exact insertTS_ne_nil u (sortedDedup us)

theorem sortedDedup_head_min {l : List Timestamp} {t : Timestamp} {rest : List Timestamp}
    (h : sortedDedup l = t :: rest) :
    ∀ u ∈ sortedDedup l, t.year ≤ u.year := by
  intro u hu
  rw [h] at hu
  rcases List.mem_cons.mp hu with hu | hu
  · subst hu
    exact le_refl _
  · have hp := pairwise_sortedDedup l
    rw [h, List.pairwise_cons] at hp
    exact Timestamp.ltb_year_le (hp.1 u hu)

theorem isLineBreak_ne {c : Char} (h : isLineBreak c = false) :
    c ≠ '\n' ∧ c ≠ '\r' := by
  unfold isLineBreak at h
  simp only [Bool.or_eq_false_iff, beq_eq_false_iff_ne, ne_eq] at h
  exact ⟨h.1.1.1.1.1.1.1.1.1, h.1.1.1.1.1.1.1.1.2⟩

theorem splitlinesGo_cons_clean {c : Char} (h : isLineBreak c = false)
    (rest acc : List Char) (f : Bool) :
    splitlinesGo (c :: rest) acc f = splitlinesGo rest (c :: acc) false := by
  obtain ⟨hn, hr⟩ := isLineBreak_ne h
  simp only [splitlinesGo]
  rw [if_neg (by simp [hn]), if_neg hr, if_neg (by rw [h]; exact Bool.false_ne_true)]

theorem splitlinesGo_newline (rest acc : List Char) :
    splitlinesGo ('\n' :: rest) acc false = acc.reverse :: splitlinesGo rest [] false := by
  simp only [splitlinesGo]
  rw [if_neg (by simp), if_neg (by decide), if_pos (by decide)]

theorem splitlinesGo_clean : ∀ (cs acc : List Char) (f : Bool),
    (∀ c ∈ acc, isLineBreak c = false) →
    ∀ l ∈ splitlinesGo cs acc f, ∀ ch ∈ l, isLineBreak ch = false := by
  intro cs
  induction cs with
  | nil =>
    intro acc f hacc l hl ch hch
    simp only [splitlinesGo] at hl
    split_ifs at hl
    · exact absurd hl (List.not_mem_nil l)
    · rw [List.mem_singleton] at hl
      subst hl
      exact hacc ch (List.mem_reverse.mp hch)
  | cons c rest ih =>
    intro acc f hacc l hl ch hch
    simp only [splitlinesGo] at hl
    split_ifs at hl with h1 h2 h3
    · exact ih acc false hacc l hl ch hch
    · rcases List.mem_cons.mp hl with rfl | hl
      · exact hacc ch (List.mem_reverse.mp hch)
      · exact ih [] true (by simp) l hl ch hch
    · rcases List.mem_cons.mp hl with rfl | hl
      · exact hacc ch (List.mem_reverse.mp hch)
      · exact ih [] false (by simp) l hl ch hch
    · refine ih (c :: acc) false ?_ l hl ch hch
      intro x hx
      rcases List.mem_cons.mp hx with rfl | hx
      · exact Bool.not_eq_true _ ▸ eq_false_of_ne_true h3
      · exact hacc x hx

theorem splitlinesGo_append_clean {l : List Char}
    (h : ∀ c ∈ l, isLineBreak c = false) :
    ∀ (rest acc : List Char),
      splitlinesGo (l ++ rest) acc false = splitlinesGo rest (l.reverse ++ acc) false := by
  induction l with
  | nil => intro rest acc; simp
  | cons c l2 ih =>
    intro rest acc
    have hc : isLineBreak c = false := h c (List.mem_cons_self c l2)
    rw [List.cons_append, splitlinesGo_cons_clean hc,
      ih (fun x hx => h x (List.mem_cons_of_mem c hx))]
    simp

theorem intercalate_cons_cons (s a b : List Char) (K : List (List Char)) :
    List.intercalate s (a :: b :: K) = a ++ s ++ List.intercalate s (b :: K) := by
  simp [List.intercalate, List.intersperse]

theorem splitlines_intercalate : ∀ (K : List (List Char)),
    (∀ l ∈ K, ∀ c ∈ l, isLineBreak c = false) → (∀ l ∈ K, l ≠ []) →
    splitlines (List.intercalate ['\n'] K) = K := by
  intro K
  induction K with
  | nil => intro _ _; rfl
  | cons a K2 ih =>
    intro hclean hne
    cases K2 with
    | nil =>
      have he : List.intercalate ['\n'] [a] = a := by simp [List.intercalate]
      rw [he]
      unfold splitlines
      have h2 := splitlinesGo_append_clean (hclean a (List.mem_singleton.mpr rfl)) [] []
      rw [List.append_nil] at h2
      rw [h2]
      simp only [splitlinesGo, List.append_nil, List.reverse_reverse]
      rw [if_neg]
      simp only [List.isEmpty_eq_true, List.reverse_eq_nil_iff]
      exact hne a (List.mem_singleton.mpr rfl)
    | cons b K3 =>
      rw [intercalate_cons_cons]
      unfold splitlines
      rw [List.append_assoc, List.singleton_append,
        splitlinesGo_append_clean (hclean a (List.mem_cons_self a _)) _ [],
        splitlinesGo_newline]
      rw [List.append_nil, List.reverse_reverse]
      have := ih (fun l hl c hc => hclean l (List.mem_cons_of_mem a hl) c hc)
        (fun l hl => hne l (List.mem_cons_of_mem a hl))
      unfold splitlines at this
      rw [this]

theorem parse_bracketed_nil : parse_bracketed_syslog_datetime [] = none := rfl

theorem parse_traditional_nil (year : Int) :
    parse_traditional_syslog_datetime [] year = none := rfl

theorem parse_bracketed_valid {line : List Char} {t : Timestamp}
    (h : parse_bracketed_syslog_datetime line = some t) :
    validDatetime t.year t.month t.day t.hour t.minute t.second = true := by
  unfold parse_bracketed_syslog_datetime at h
  iterate 17 all_goals try split at h
  all_goals first
    | exact absurd h (by simp)
    | exact mkDatetime_valid h

theorem parse_traditional_valid {line : List Char} {year : Int} {t : Timestamp}
    (h : parse_traditional_syslog_datetime line year = some t) :
    validDatetime t.year t.month t.day t.hour t.minute t.second = true := by
  unfold parse_traditional_syslog_datetime at h
  iterate 11 all_goals try split at h
  all_goals first
    | exact absurd h (by simp)
    | exact mkDatetime_valid h

theorem parse_log_time_valid {now_year : Int} {line : List Char} {t : Timestamp}
    (h : parse_log_time now_year line = some t) :
    validDatetime t.year t.month t.day t.hour t.minute t.second = true := by
  unfold parse_log_time at h
  iterate 5 all_goals try split at h
  all_goals first
    | exact absurd h (by simp)
    | exact mkDatetime_valid h

theorem keepLine_ne_nil {startT endT : Timestamp} {year : Int} {fmt : String}
    {line : List Char} (h : keepLine startT endT year fmt line = true) :
    line ≠ [] := by
  intro he
  subst he
  unfold keepLine at h
  split at h
  · rename_i heq
    split at heq
    · rw [parse_bracketed_nil] at heq
      cases heq
    · rw [parse_traditional_nil] at heq
      cases heq
  · cases h

theorem keepLine_iff {startT endT : Timestamp} {year : Int} {fmt : String}
    {line : List Char} :
    keepLine startT endT year fmt line = true ↔
      ∃ dt, (if fmt = "bracketed" then parse_bracketed_syslog_datetime line
             else parse_traditional_syslog_datetime line year) = some dt ∧
        Timestamp.leb startT dt = true ∧ Timestamp.ltb dt endT = true := by
  unfold keepLine
  split
  · rename_i dt heq
    rw [heq]
    simp [Bool.and_eq_true]
  · rename_i heq
    rw [heq]
    simp

theorem mem_keptLines {startT endT : Timestamp} {year : Int} {fmt : String}
    {lines : List (List Char)} {line : List Char} :
    line ∈ keptLines startT endT year fmt lines ↔
      line ∈ lines ∧ ∃ dt,
        (if fmt = "bracketed" then parse_bracketed_syslog_datetime line
         else parse_traditional_syslog_datetime line year) = some dt ∧
        Timestamp.leb startT dt = true ∧ Timestamp.ltb dt endT = true := by
  unfold keptLines
  rw [List.mem_filter, keepLine_iff]

theorem keepLineOffset_iff {now_year : Int} {startW endW : Timestamp} {line : List Char} :
    keepLineOffset now_year startW endW line = true ↔
      ∃ ts, parse_log_time now_year line = some ts ∧
        Timestamp.leb startW ts = true ∧ Timestamp.leb ts endW = true := by
  unfold keepLineOffset
  split
  · rename_i ts heq
    rw [heq]
    simp [Bool.and_eq_true]
  · rename_i heq
    rw [heq]
    simp

theorem sortedDedup_min {l : List Timestamp} (h : l ≠ []) :
    ∃ t rest, sortedDedup l = t :: rest ∧ t ∈ l ∧ ∀ u ∈ l, t.year ≤ u.year := by
  have hne := sortedDedup_ne_nil h
  obtain ⟨t, rest, heq⟩ := List.exists_cons_of_ne_nil hne
  refine ⟨t, rest, heq, ?_, ?_⟩
  · exact mem_sortedDedup.mp (heq ▸ List.mem_cons_self t rest)
  · intro u hu
    exact sortedDedup_head_min heq u (mem_sortedDedup.mpr hu)

theorem splitlines_clean (cs : List Char) :
    ∀ l ∈ splitlines cs, ∀ ch ∈ l, isLineBreak ch = false :=
  splitlinesGo_clean cs [] false (by simp)

theorem isDigit_not_space {c : Char} (h : c.isDigit = true) : pyIsSpace c = false := by
  by_contra hc
  rw [Bool.not_eq_false] at hc
  unfold pyIsSpace at hc
  simp only [Bool.or_eq_true, beq_iff_eq] at hc
  rcases hc with ((((rfl | rfl) | rfl) | rfl) | rfl) | rfl <;> exact absurd h (by decide)

theorem isDigit_ne_underscore {c : Char} (h : c.isDigit = true) : c ≠ '_' := by
  intro he
  rw [he] at h
  exact absurd h (by decide)

theorem isDigit_ne_minus {c : Char} (h : c.isDigit = true) : c ≠ '-' := by
  intro he
  rw [he] at h
  exact absurd h (by decide)

theorem isDigit_ne_plus {c : Char} (h : c.isDigit = true) : c ≠ '+' := by
  intro he
  rw [he] at h
  exact absurd h (by decide)

theorem pyDigitsGo_digits : ∀ (cs : List Char) (acc : Nat),
    (∀ c ∈ cs, c.isDigit = true) →
    pyDigitsGo cs acc = some (cs.foldl (fun a c => a * 10 + (c.toNat - 48)) acc) := by
  intro cs
  induction cs with
  | nil => intro acc _; rfl
  | cons c cs2 ih =>
    intro acc hd
    have hc : c.isDigit = true := hd c (List.mem_cons_self c cs2)
    unfold pyDigitsGo
    rw [if_neg (isDigit_ne_underscore hc), if_pos hc, List.foldl_cons]
    exact ih _ (fun x hx => hd x (List.mem_cons_of_mem c hx))

theorem pyDigits_digits {ds : List Char} (hne : ds ≠ [])
    (hd : ∀ c ∈ ds, c.isDigit = true) :
    pyDigits ds = some (digitsToNat ds) := by
  cases ds with
  | nil => exact absurd rfl hne
  | cons c cs =>
    have hc : c.isDigit = true := hd c (List.mem_cons_self c cs)
    unfold pyDigits
    dsimp only
    rw [if_pos hc, pyDigitsGo_digits cs _ (fun x hx => hd x (List.mem_cons_of_mem c hx))]
    simp [digitsToNat]

theorem pyInt_digits {ds : List Char} (hne : ds ≠ [])
    (hd : ∀ c ∈ ds, c.isDigit = true) :
    pyInt ds = some ((digitsToNat ds : Int)) := by
  obtain ⟨c, cs, rfl⟩ := List.exists_cons_of_ne_nil hne
  have hc : c.isDigit = true := hd c (List.mem_cons_self c cs)
  have hstrip1 : (c :: cs).dropWhile pyIsSpace = c :: cs := by
    rw [List.dropWhile_cons, if_neg (by rw [isDigit_not_space hc]; exact Bool.false_ne_true)]
  obtain ⟨b, bs, hrev⟩ : ∃ b bs, (c :: cs).reverse = b :: bs := by
    cases hr : (c :: cs).reverse with
    | nil => exact absurd (List.reverse_eq_nil_iff.mp hr) (by simp)
    | cons b bs => exact ⟨b, bs, rfl⟩
  have hb : b.isDigit = true := by
    have : b ∈ (c :: cs).reverse := hrev ▸ List.mem_cons_self b bs
    exact hd b (List.mem_reverse.mp this)
  have hstrip2 : ((c :: cs).reverse).dropWhile pyIsSpace = (c :: cs).reverse := by
    rw [hrev, List.dropWhile_cons,
      if_neg (by rw [isDigit_not_space hb]; exact Bool.false_ne_true)]
  unfold pyInt
  rw [hstrip1, hstrip2, List.reverse_reverse]
  dsimp only
  rw [if_neg (isDigit_ne_minus hc), if_neg (isDigit_ne_plus hc)]
  rw [pyDigits_digits hne hd]
  rfl

/-- C3: for the content whose lines are `[Tue Sep 9 13:12:40 2025] a`,
`[Tue Sep 9 13:12:42 2025] b` and `not a log line`, with anchor
2025-09-09 13:12:42 and a 1-minute duration window, duration-mode filtering
outputs exactly the single line `[Tue Sep 9 13:12:42 2025] b`: the
anchor-equal line is kept by the inclusive start bound, the unparseable line
is excluded, and the 13:12:40 line precedes the window start. -/
theorem end_to_end_bracketed_window :
    filter_syslog_by_time
      "[Tue Sep 9 13:12:40 2025] a\n[Tue Sep 9 13:12:42 2025] b\nnot a log line".toList
      ⟨2025, 9, 9, 13, 12, 42⟩ 1 2025 "bracketed" =
      "[Tue Sep 9 13:12:42 2025] b".toList := by decide

/-- C9: with the `"bracketed"` format the year argument is never consulted,
so duration-mode filtering returns identical output for any two years. -/
theorem bracketed_filter_year_independent (log_content : List Char) (start : Timestamp)
    (duration_minutes y1 y2 : Int) :
    filter_syslog_by_time log_content start duration_minutes y1 "bracketed" =
    filter_syslog_by_time log_content start duration_minutes y2 "bracketed" := by
  rfl

/-- C10: content classified `"bracketed"` has some line parsing under the
bracketed grammar, and every such line contributes a timestamp, so the
timestamp index built for it is non-empty. -/
theorem bracketed_implies_nonempty_index (now_year : Int) (log_content : List Char)
    (h : detect_timestamp_format log_content = "bracketed") :
    (detect_year_and_times now_year log_content "bracketed").2 ≠ [] := by
  unfold detect_timestamp_format at h
  split_ifs at h with hany
  · rw [List.any_eq_true] at hany
    obtain ⟨l, hl, hsome⟩ := hany
    rw [Option.isSome_iff_exists] at hsome
    obtain ⟨t, ht⟩ := hsome
    unfold detect_year_and_times
    rw [if_pos rfl]
    dsimp only
    apply sortedDedup_ne_nil
    intro hnil
    have hmem : t ∈ (splitlines log_content).filterMap parse_bracketed_syslog_datetime :=
      List.mem_filterMap.mpr ⟨l, hl, ht⟩
    rw [hnil] at hmem
    exact absurd hmem (List.not_mem_nil t)
  · exact absurd h (by decide)

/-- C10 witness: a one-line bracketed file. -/
theorem bracketed_implies_nonempty_index_witness :
    (detect_year_and_times 0 "[Tue Sep 9 13:12:42 2025] b".toList "bracketed").2 ≠ [] :=
  bracketed_implies_nonempty_index 0 "[Tue Sep 9 13:12:42 2025] b".toList (by decide)

/-- C4: the timestamp sequence produced by the index builders of both
`fasteye.py` and `logwise_v3.py` is strictly increasing under the
lexicographic tuple comparison of (year, month, day, hour, minute, second),
and has no repeated value, for every input. -/
theorem time_index_strictly_increasing_nodup :
    (∀ (now_year : Int) (log_content : List Char) (timestamp_format : String),
      ((detect_year_and_times now_year log_content timestamp_format).2.Pairwise
        (fun a b => Timestamp.ltb a b = true)) ∧
      (detect_year_and_times now_year log_content timestamp_format).2.Nodup) ∧
    (∀ (now_year : Int) (log_content : List Char),
      ((detect_year_and_times_v3 now_year log_content).2.Pairwise
        (fun a b => Timestamp.ltb a b = true)) ∧
      (detect_year_and_times_v3 now_year log_content).2.Nodup) := by
  constructor
  · intro now_year log_content timestamp_format
    unfold detect_year_and_times
    split_ifs with h
    · exact ⟨pairwise_sortedDedup _, nodup_sortedDedup _⟩
    · exact ⟨pairwise_sortedDedup _, nodup_sortedDedup _⟩
  · intro now_year log_content
    unfold detect_year_and_times_v3
    exact ⟨pairwise_sortedDedup _, nodup_sortedDedup _⟩

/-- C6: for a bracketed file with at least one parsed timestamp, the
detected year is the minimum of the years observed among the parsed
timestamps (it occurs, and is a lower bound). -/
theorem bracketed_year_is_min_observed (now_year : Int) (log_content : List Char)
    (h : (splitlines log_content).filterMap parse_bracketed_syslog_datetime ≠ []) :
    (detect_year_and_times now_year log_content "bracketed").1 ∈
      ((splitlines log_content).filterMap parse_bracketed_syslog_datetime).map Timestamp.year ∧
    ∀ t ∈ (splitlines log_content).filterMap parse_bracketed_syslog_datetime,
      (detect_year_and_times now_year log_content "bracketed").1 ≤ t.year := by
  obtain ⟨t0, rest, heq, hmem, hmin⟩ := sortedDedup_min h
  have hfst : (detect_year_and_times now_year log_content "bracketed").1 = t0.year := by
    unfold detect_year_and_times
    rw [if_pos rfl]
    dsimp only
    rw [heq]
    rfl
  rw [hfst]
  exact ⟨List.mem_map_of_mem Timestamp.year hmem, hmin⟩

/-- C6 witness: a two-line bracketed file whose later line carries the
earlier year. -/
theorem bracketed_year_is_min_observed_witness :
    (detect_year_and_times 0
      "[Tue Sep 9 13:12:42 2025] b\n[Mon Jan 1 00:00:00 2024] a".toList "bracketed").1 ∈
      ((splitlines "[Tue Sep 9 13:12:42 2025] b\n[Mon Jan 1 00:00:00 2024] a".toList).filterMap
        parse_bracketed_syslog_datetime).map Timestamp.year ∧
    ∀ t ∈ (splitlines "[Tue Sep 9 13:12:42 2025] b\n[Mon Jan 1 00:00:00 2024] a".toList).filterMap
        parse_bracketed_syslog_datetime,
      (detect_year_and_times 0
        "[Tue Sep 9 13:12:42 2025] b\n[Mon Jan 1 00:00:00 2024] a".toList "bracketed").1 ≤ t.year :=
  bracketed_year_is_min_observed 0 _ (by decide)

/-- C7 counterexample: the month token `SEP` is not the capitalized
abbreviation `Sep`, yet the bracketed parser matches it (Python `strptime`
compiles `%b` with `re.IGNORECASE`), contradicting the claimed
case-sensitive matching. -/
theorem month_case_counterexample :
    parse_bracketed_syslog_datetime "[Tue SEP 9 13:12:42 2025] b".toList ≠ none ∧
    parse_bracketed_syslog_datetime "[Tue SEP 9 13:12:42 2025] b".toList =
      some ⟨2025, 9, 9, 13, 12, 42⟩ := by decide

/-- C7 amended: month names are matched case-insensitively against the
standard three-letter abbreviations: tokens equal up to ASCII case parse
identically, any case variant of an abbreviation parses to that month, and
a token matching no abbreviation yields no match. -/
theorem month_match_case_insensitive :
    (∀ s1 s2 : List Char, s1.map lowerAscii = s2.map lowerAscii →
      strptimeMonth s1 = strptimeMonth s2) ∧
    parse_bracketed_syslog_datetime "[Tue SEP 9 13:12:42 2025] b".toList =
      some ⟨2025, 9, 9, 13, 12, 42⟩ ∧
    parse_bracketed_syslog_datetime "[Tue sEp 9 13:12:42 2025] b".toList =
      some ⟨2025, 9, 9, 13, 12, 42⟩ ∧
    parse_bracketed_syslog_datetime "[Tue Xyz 9 13:12:42 2025] b".toList = none ∧
    parse_traditional_syslog_datetime "SEP  9 13:12:42 host".toList 2025 =
      some ⟨2025, 9, 9, 13, 12, 42⟩ := by
  refine ⟨fun s1 s2 h => by unfold strptimeMonth; rw [h], ?_, ?_, ?_, ?_⟩ <;> decide

/-- C7 amended witness: `SEP` and `Sep` are the same month token up to
case, hence parse identically. -/
theorem month_match_case_insensitive_witness :
    strptimeMonth "SEP".toList = strptimeMonth "Sep".toList :=
  month_match_case_insensitive.1 "SEP".toList "Sep".toList (by decide)

/-- C2 counterexample: the claim requires every negative number to fail with
the InvalidOffsetFormat condition, but `int()` accepts a sign, so
`parse_offset` succeeds on `-5` (−5 minutes) and on `-5m`. -/
theorem parse_offset_negative_counterexample :
    parse_offset "-5".toList = .ok (-300) ∧
    parse_offset "-5m".toList = .ok (-300) := by decide

/-- C2 amended: a digit string followed by `s`, `m` or `h` yields that many
seconds, minutes or hours; with no unit the whole value is minutes; the
spec's examples hold; a non-numeric input fails with the `ValueError` the
uncaught `int()` raises; and a negative integer is accepted, producing a
negative offset, rather than failing. -/
theorem parse_offset_amended :
    (∀ ds : List Char, ds ≠ [] → (∀ c ∈ ds, c.isDigit = true) →
      parse_offset (ds ++ ['m']) = .ok ((digitsToNat ds : Int) * 60) ∧
      parse_offset (ds ++ ['h']) = .ok ((digitsToNat ds : Int) * 3600) ∧
      parse_offset (ds ++ ['s']) = .ok ((digitsToNat ds : Int)) ∧
      parse_offset ds = .ok ((digitsToNat ds : Int) * 60)) ∧
    parse_offset "10m".toList = .ok 600 ∧
    parse_offset "1h".toList = .ok 3600 ∧
    parse_offset "30s".toList = .ok 30 ∧
    parse_offset "90".toList = .ok 5400 ∧
    parse_offset "abc".toList = .error "ValueError" ∧
    parse_offset "-5".toList = .ok (-300) ∧
    parse_offset "-5m".toList = .ok (-300) := by
  refine ⟨?_, by decide, by decide, by decide, by decide, by decide, by decide, by decide⟩
  intro ds hne hd
  have hm : pyInt ds = some ((digitsToNat ds : Int)) := pyInt_digits hne hd
  obtain ⟨b, hb⟩ : ∃ b, ds.getLast? = some b := by
    cases hg : ds.getLast? with
    | none => exact absurd (List.getLast?_eq_none_iff.mp hg) hne
    | some b => exact ⟨b, rfl⟩
  have hbd : b.isDigit = true := by
    have hbm : b ∈ ds := List.mem_of_getLast?_eq_some hb
    exact hd b hbm
  have hbm2 : b ≠ 'm' := by
    intro he
    rw [he] at hbd
    exact absurd hbd (by decide)
  have hbh : b ≠ 'h' := by
    intro he
    rw [he] at hbd
    exact absurd hbd (by decide)
  have hbs : b ≠ 's' := by
    intro he
    rw [he] at hbd
    exact absurd hbd (by decide)
  refine ⟨?_, ?_, ?_, ?_⟩
  · unfold parse_offset
    rw [if_pos (by rw [List.getLast?_concat]), List.dropLast_concat, hm]
  · unfold parse_offset
    rw [if_neg (by rw [List.getLast?_concat]; simp), if_pos (by rw [List.getLast?_concat]),
      List.dropLast_concat, hm]
  · unfold parse_offset
    rw [if_neg (by rw [List.getLast?_concat]; simp), if_neg (by rw [List.getLast?_concat]; simp),
      if_pos (by rw [List.getLast?_concat]), List.dropLast_concat, hm]
  · unfold parse_offset
    rw [if_neg (by rw [hb]; simp [hbm2]), if_neg (by rw [hb]; simp [hbh]),
      if_neg (by rw [hb]; simp [hbs]), hm]

/-- C2 amended witness: the general unit clause applied to the digits `10`
with unit `m`. -/
theorem parse_offset_amended_witness :
    parse_offset ("10".toList ++ ['m']) = .ok ((digitsToNat "10".toList : Int) * 60) :=
  (parse_offset_amended.1 "10".toList (by decide) (by decide)).1

/-- C5: both parsers only ever return `none` or a timestamp whose
components the `datetime` constructor accepts (so a matched grammar with an
out-of-calendar date such as Feb 31 yields no match, never a partial
result), and a line that fails to parse contributes nothing to the
timestamp index and never appears in a window-filter result. -/
theorem timestamp_parsing_total :
    (∀ (line : List Char) (t : Timestamp), parse_bracketed_syslog_datetime line = some t →
      validDatetime t.year t.month t.day t.hour t.minute t.second = true) ∧
    (∀ (line : List Char) (year : Int) (t : Timestamp),
      parse_traditional_syslog_datetime line year = some t →
      validDatetime t.year t.month t.day t.hour t.minute t.second = true) ∧
    parse_bracketed_syslog_datetime "[Tue Feb 31 10:00:00 2025] x".toList = none ∧
    (∀ (now_year : Int) (log_content : List Char) (fmt : String) (t : Timestamp),
      t ∈ (detect_year_and_times now_year log_content fmt).2 →
      ∃ l ∈ splitlines log_content,
        (if fmt = "bracketed" then parse_bracketed_syslog_datetime l
         else parse_traditional_syslog_datetime l
           (detect_year_and_times now_year log_content fmt).1) = some t) ∧
    (∀ (startT endT : Timestamp) (year : Int) (fmt : String) (lines : List (List Char))
      (line : List Char),
      (if fmt = "bracketed" then parse_bracketed_syslog_datetime line
       else parse_traditional_syslog_datetime line year) = none →
      line ∉ keptLines startT endT year fmt lines) := by
  refine ⟨fun line t h => parse_bracketed_valid h,
    fun line year t h => parse_traditional_valid h, by decide, ?_, ?_⟩
  · intro now_year log_content fmt t ht
    by_cases hf : fmt = "bracketed"
    · subst hf
      have ht2 : t ∈ sortedDedup
          ((splitlines log_content).filterMap parse_bracketed_syslog_datetime) := ht
      rw [mem_sortedDedup] at ht2
      obtain ⟨l, hl, hpl⟩ := List.mem_filterMap.mp ht2
      refine ⟨l, hl, ?_⟩
      rw [if_pos rfl]
      exact hpl
    · unfold detect_year_and_times at ht
      rw [if_neg hf] at ht
      dsimp only at ht
      rw [mem_sortedDedup] at ht
      obtain ⟨l, hl, hpl⟩ := List.mem_filterMap.mp ht
      refine ⟨l, hl, ?_⟩
      rw [if_neg hf]
      have hy : (detect_year_and_times now_year log_content fmt).1 =
          (match searchYearToken log_content with
           | some y => (y : Int)
           | none => now_year) := by
        unfold detect_year_and_times
        rw [if_neg hf]
      rw [hy]
      exact hpl
  · intro startT endT year fmt lines line hp hmem
    rw [mem_keptLines] at hmem
    obtain ⟨-, dt, hdt, -⟩ := hmem
    rw [hp] at hdt
    cases hdt

/-- C5 witness: the bracketed validity clause applied to a parsed line. -/
theorem timestamp_parsing_total_witness :
    validDatetime 2025 9 9 13 12 42 = true :=
  timestamp_parsing_total.1 "[Tue Sep 9 13:12:42 2025] b".toList
    ⟨2025, 9, 9, 13, 12, 42⟩ (by decide)

/-- C8: duration-mode filtering is idempotent — filtering its own output
with the same window parameters returns it unchanged — and the kept lines
form a subsequence of the original lines, hence appear in their original
relative order. -/
theorem duration_filter_idempotent :
    ∀ (log_content : List Char) (start : Timestamp) (duration_minutes year : Int)
      (timestamp_format : String),
      filter_syslog_by_time
        (filter_syslog_by_time log_content start duration_minutes year timestamp_format)
        start duration_minutes year timestamp_format =
        filter_syslog_by_time log_content start duration_minutes year timestamp_format ∧
      (keptLines start (tadd start (duration_minutes * 60)) year timestamp_format
        (splitlines log_content)).Sublist (splitlines log_content) := by
  intro c A D y fmt
  constructor
  · have hclean : ∀ l ∈ keptLines A (tadd A (D * 60)) y fmt (splitlines c),
        ∀ ch ∈ l, isLineBreak ch = false :=
      fun l hl ch hch => splitlines_clean c l (List.mem_of_mem_filter hl) ch hch
    have hne : ∀ l ∈ keptLines A (tadd A (D * 60)) y fmt (splitlines c), l ≠ [] :=
      fun l hl => keepLine_ne_nil (List.of_mem_filter hl)
    have hsl := splitlines_intercalate _ hclean hne
    show List.intercalate ['\n']
        (keptLines A (tadd A (D * 60)) y fmt
          (splitlines (List.intercalate ['\n']
            (keptLines A (tadd A (D * 60)) y fmt (splitlines c))))) =
      List.intercalate ['\n'] (keptLines A (tadd A (D * 60)) y fmt (splitlines c))
    rw [hsl]
    congr 1
    exact List.filter_eq_self.mpr (fun a ha => List.of_mem_filter ha)
  · exact List.filter_sublist _

/-- C1: duration-mode filtering (fasteye) keeps exactly the lines whose
parsed timestamp `t` satisfies `A <= t < A + D` (start-inclusive,
end-exclusive), and offset-mode filtering (logwise-time) keeps exactly the
lines whose parsed timestamp `t` satisfies `A - B <= t <= A + F` (both ends
inclusive), where `A` is the parsed target with its year replaced by the
current year. -/
theorem window_mode_inclusivities :
    (∀ (log_content : List Char) (A : Timestamp) (D year : Int) (fmt : String)
      (line : List Char), 0 < D →
      filter_syslog_by_time log_content A D year fmt =
        List.intercalate ['\n']
          (keptLines A (tadd A (D * 60)) year fmt (splitlines log_content)) ∧
      (line ∈ keptLines A (tadd A (D * 60)) year fmt (splitlines log_content) ↔
        line ∈ splitlines log_content ∧ ∃ dt,
          (if fmt = "bracketed" then parse_bracketed_syslog_datetime line
           else parse_traditional_syslog_datetime line year) = some dt ∧
          Timestamp.leb A dt = true ∧ Timestamp.ltb dt (tadd A (D * 60)) = true)) ∧
    (∀ (now_year : Int) (lines : List (List Char)) (target_time before after : List Char)
      (base : Timestamp) (B F : Int),
      parseTargetTime target_time = some base →
      parse_offset before = .ok B →
      parse_offset after = .ok F →
      filter_logs_by_time now_year lines target_time before after =
        .ok (lines.filter (keepLineOffset now_year
          (tsub { base with year := now_year } B) (tadd { base with year := now_year } F))) ∧
      ∀ line, line ∈ lines.filter (keepLineOffset now_year
          (tsub { base with year := now_year } B) (tadd { base with year := now_year } F)) ↔
        line ∈ lines ∧ ∃ ts, parse_log_time now_year line = some ts ∧
          Timestamp.leb (tsub { base with year := now_year } B) ts = true ∧
          Timestamp.leb ts (tadd { base with year := now_year } F) = true) := by
  constructor
  · intro log_content A D year fmt line _
    exact ⟨rfl, mem_keptLines⟩
  · intro now_year lines target_time before after base B F htgt hb ha
    constructor
    · unfold filter_logs_by_time
      rw [htgt, hb, ha]
    · intro line
      rw [List.mem_filter, keepLineOffset_iff]

/-- C1 witness: the duration half keeps the anchor-equal line of a one-line
bracketed file, and the offset half filters a dmesg-style file around a
parsed target. -/
theorem window_mode_inclusivities_witness :
    ("[Tue Sep 9 13:12:42 2025] b".toList ∈
      keptLines ⟨2025, 9, 9, 13, 12, 42⟩ (tadd ⟨2025, 9, 9, 13, 12, 42⟩ (1 * 60)) 2025
        "bracketed" (splitlines "[Tue Sep 9 13:12:42 2025] b".toList)) ∧
    filter_logs_by_time 2025 ["[Tue Sep  9 13:12:42 2025] x".toList]
      "Sep-09T13:10".toList "5m".toList "5m".toList =
      .ok ["[Tue Sep  9 13:12:42 2025] x".toList] := by
  constructor
  · exact ((window_mode_inclusivities.1 "[Tue Sep 9 13:12:42 2025] b".toList
      ⟨2025, 9, 9, 13, 12, 42⟩ 1 2025 "bracketed" "[Tue Sep 9 13:12:42 2025] b".toList
      (by decide)).2).mpr
      ⟨by decide, ⟨2025, 9, 9, 13, 12, 42⟩, by decide, by decide, by decide⟩
  · rw [(window_mode_inclusivities.2 2025 ["[Tue Sep  9 13:12:42 2025] x".toList]
      "Sep-09T13:10".toList "5m".toList "5m".toList ⟨1900, 9, 9, 13, 10, 0⟩ 300 300
      (by decide) (by decide) (by decide)).1]
    decide
